import Mathlib

/-!
Verification development for the research-platform identifier-resolution
pipeline implemented in scripts/demo_platform_metadata.py.

The pipeline is shallowly embedded: each Python function becomes a Lean
definition of the same name (where Lean allows it), Python dictionaries
become structures or ordered association lists, and the external
knowledge-base calls (the Wikidata HTTP transport) become an oracle
structure of pure functions, with every oracle invocation recorded in an
explicit call trace so that statements about which queries are issued can
be proved.

Python's regular-expression library is embedded by a small executable
engine (namespace Rx) implementing the fragment of Python re syntax the
repository's data can exercise: literals, escapes, character classes,
grouping, alternation, greedy star/plus/optional quantifiers, the dot,
and the start/end anchors, with Python's leftmost, priority-ordered,
greedy backtracking semantics. Character classes beyond this fragment
fail to parse, which the pipeline treats exactly as Python treats
re.error. The one hard-coded pattern of the source, the DOI fallback
r'(10\.\d+/[^/\s]+)$', is additionally embedded directly as an
executable function (doiScan) derived from that pattern's backtracking
behaviour, so that declarative facts about the fallback can be proved by
structural induction.
-/

set_option maxHeartbeats 1000000
set_option linter.unnecessarySeqFocus false
set_option linter.unusedVariables false

/-- truthyStr mirrors Python truthiness for an optional string value:
None and the empty string are falsy, every other string is truthy. -/
def truthyStr (s : Option String) : Bool :=
  match s with
  | none => false
  | some v => v ≠ ""

/-- pyLookup is Python dict lookup (d.get(k)) for a dict represented as an
insertion-ordered association list. -/
def pyLookup {α : Type} (l : List (String × α)) (k : String) : Option α :=
  match l with
  | [] => none
  | (k', v) :: t => if k' = k then some v else pyLookup t k

/-- dictInsert is Python dict assignment d[k] = v on an insertion-ordered
association list: an existing key is updated in place, a new key is
appended at the end. -/
def dictInsert {α : Type} (l : List (String × α)) (k : String) (v : α) :
    List (String × α) :=
  match l with
  | [] => [(k, v)]
  | (k', v') :: t => if k' = k then (k, v) :: t else (k', v') :: dictInsert t k v

/-- schemeChars recognises the characters CPython's urlsplit allows in a
URL scheme (letters, digits, plus, minus, dot). -/
def schemeChars (c : Char) : Bool :=
  c.isAlpha || c.isDigit || c = '+' || c = '-' || c = '.'

/-- splitScheme embeds the scheme-splitting step of CPython's urlsplit:
if the URL has a colon at a positive index and everything before it is a
valid scheme beginning with an ASCII letter, the scheme and the colon are
dropped; otherwise the URL is returned unchanged. -/
def splitScheme (cs : List Char) : List Char :=
  let pre := cs.takeWhile (fun c => c ≠ ':')
  let post := cs.dropWhile (fun c => c ≠ ':')
  match post with
  | ':' :: rest =>
    match pre with
    | [] => cs
    | c0 :: _ => if c0.isAlpha && pre.all schemeChars then rest else cs
  | _ => cs

/-- netlocDelim recognises the three characters that terminate the netloc
section of a URL in CPython's urlsplit. -/
def netlocDelim (c : Char) : Bool :=
  c = '/' || c = '?' || c = '#'

/-- get_domain_from_url embeds the source's get_domain_from_url, i.e.
urlparse(url).netloc: after stripping a scheme, a URL starting with two
slashes has its netloc sliced up to the first slash, question mark or hash
sign, and returned verbatim (case preserved, port and userinfo included);
a URL without the double slash yields the empty string. CPython raises
ValueError (Invalid IPv6 URL) when the netloc contains an unmatched
square bracket; that exception, which the caller does not catch, is
embedded as the none result. -/
def get_domain_from_url (url : String) : Option String :=
  let rest := splitScheme url.data
  match rest with
  | '/' :: '/' :: r =>
    let netloc := r.takeWhile (fun c => ¬ netlocDelim c)
    if (netloc.contains '[' && ¬ netloc.contains ']') ||
       (netloc.contains ']' && ¬ netloc.contains '[') then
      none
    else
      some (String.mk netloc)
  | _ => some ""

/-- subst1 embeds Python str.replace specialised to the fixed pattern of
the source, the two-character placeholder dollar-one: every
non-overlapping occurrence is replaced left to right, and replaced text
is not rescanned. -/
def subst1 (rep : List Char) : List Char → List Char
  | [] => []
  | [c] => [c]
  | c :: c2 :: rest =>
    if c = '$' ∧ c2 = '1' then rep ++ subst1 rep rest
    else c :: subst1 rep (c2 :: rest)

/-- applyFormatter embeds the source expression
formatter_url.replace(dollar-one, extracted_id). -/
def applyFormatter (template extracted_id : String) : String :=
  String.mk (subst1 extracted_id.data template.data)

/-- hasSub1 decides whether the dollar-one placeholder occurs anywhere in
a character list. -/
def hasSub1 : List Char → Bool
  | [] => false
  | [_] => false
  | c :: c2 :: rest => (decide (c = '$' ∧ c2 = '1')) || hasSub1 (c2 :: rest)

/-- pySpace recognises the ASCII characters of Python's backslash-s
character class (space, tab, newline, carriage return, vertical tab,
form feed). -/
def pySpace (c : Char) : Bool :=
  c = ' ' || c = '\t' || c = '\n' || c = '\r' ||
  c = '\x0b' || c = '\x0c'

/-- doiBody recognises the characters admitted by the bracket expression
of the DOI fallback pattern: anything except a slash or whitespace. -/
def doiBody (c : Char) : Bool :=
  ¬ (c = '/' || pySpace c)

/-- doiTryAt embeds one anchored attempt of the DOI fallback pattern
r'(10\.\d+/[^/\s]+)$' at the head of the list, following the pattern's
backtracking behaviour: the literal prefix one-zero-dot, then a maximal
nonempty digit run, a slash, a maximal nonempty run of non-slash
non-space characters, and the end-of-string anchor (which Python lets
also match just before one final newline). -/
def doiTryAt (cs : List Char) : Option (List Char) :=
  match cs with
  | '1' :: '0' :: '.' :: rest =>
    let ds := rest.takeWhile Char.isDigit
    let r1 := rest.dropWhile Char.isDigit
    if ds.isEmpty then none
    else
      match r1 with
      | '/' :: r2 =>
        let t := r2.takeWhile doiBody
        let r3 := r2.dropWhile doiBody
        if t.isEmpty then none
        else if r3 = [] || r3 = ['\n'] then
          some ('1' :: '0' :: '.' :: (ds ++ '/' :: t))
        else none
      | _ => none
  | _ => none

/-- doiScan embeds re.search of the DOI fallback pattern: the attempt is
made at every start position from the left, and the first position that
succeeds supplies the (unique) capturing group. -/
def doiScan : List Char → Option (List Char)
  | [] => none
  | c :: rest =>
    match doiTryAt (c :: rest) with
    | some g => some g
    | none => doiScan rest

/-- doiSearch embeds the source expression
re.search of the DOI fallback pattern followed by group(1), on strings. -/
def doiSearch (url : String) : Option String :=
  (doiScan url.data).map String.mk

namespace Rx

/-- Ast is the abstract form of the fragment of Python regular
expressions embedded here: the empty expression, a literal character,
the dot, a (possibly negated) character class given as closed ranges,
the start and end anchors, concatenation, alternation, the greedy star,
and a numbered capturing group. Plus and the optional quantifier are
desugared into star and alternation during parsing. -/
inductive Ast where
  | eps
  | lit (c : Char)
  | dot
  | cls (neg : Bool) (items : List (Char × Char))
  | bol
  | eol
  | seq (a b : Ast)
  | alt (a b : Ast)
  | star (a : Ast)
  | group (idx : Nat) (a : Ast)
deriving Repr, DecidableEq

/-- classEscape expands the shorthand escapes d, w and s into the closed
character ranges they denote (ASCII reading of Python's classes). -/
def classEscape (c : Char) : Option (List (Char × Char)) :=
  match c with
  | 'd' => some [('0', '9')]
  | 'w' => some [('0', '9'), ('A', 'Z'), ('a', 'z'), ('_', '_')]
  | 's' => some [(' ', ' '), ('\t', '\t'), ('\n', '\n'), ('\r', '\r'),
                 ('\x0b', '\x0b'), ('\x0c', '\x0c')]
  | _ => none

/-- parseClassItems reads the body of a bracket expression up to the
closing bracket. A closing bracket in first position is a literal, a
trailing minus is a literal, ranges must be properly ordered, the
shorthand escapes expand to their ranges, escaping a letter or digit
with no assigned meaning is an error, and an unterminated class is an
error: all failures make the whole pattern fail to compile. -/
def parseClassItems (fuel : Nat) (first : Bool) (cs : List Char) :
    Option (List (Char × Char) × List Char) :=
  match fuel with
  | 0 => none
  | fuel + 1 =>
    match cs with
    | [] => none
    | ']' :: rest =>
      if first then
        (parseClassItems fuel false rest).map (fun pr => ((']', ']') :: pr.1, pr.2))
      else
        some ([], rest)
    | '\\' :: e :: rest =>
      match classEscape e with
      | some rs => (parseClassItems fuel false rest).map (fun pr => (rs ++ pr.1, pr.2))
      | none =>
        if e.isAlpha || e.isDigit then none
        else
          match rest with
          | '-' :: d :: rest' =>
            if d = ']' then
              (parseClassItems fuel false rest).map (fun pr => ((e, e) :: pr.1, pr.2))
            else if e ≤ d then
              (parseClassItems fuel false rest').map (fun pr => ((e, d) :: pr.1, pr.2))
            else none
          | _ =>
            (parseClassItems fuel false rest).map (fun pr => ((e, e) :: pr.1, pr.2))
    | c :: '-' :: d :: rest' =>
      if d = ']' then
        (parseClassItems fuel false ('-' :: d :: rest')).map
          (fun pr => ((c, c) :: pr.1, pr.2))
      else if c ≤ d then
        (parseClassItems fuel false rest').map (fun pr => ((c, d) :: pr.1, pr.2))
      else none
    | c :: rest =>
      (parseClassItems fuel false rest).map (fun pr => ((c, c) :: pr.1, pr.2))

/-- isQuantifier recognises the three one-character quantifiers. -/
def isQuantifier (c : Char) : Bool :=
  c = '*' || c = '+' || c = '?'

/-- PMode names the four levels of the pattern grammar the parser
descends through: alternation, concatenation, repetition, atom. -/
inductive PMode where
  | alt
  | cat
  | rep
  | atom

/-- parseM is the recursive-descent parser for the embedded fragment,
one fuel-indexed function over the four grammar levels (fuel falls on
every recursive call, so the recursion is structural and the function
reduces inside the kernel).

At the atom level it reads a group (numbered by order of its opening
parenthesis; extension groups opened by a question mark are outside the
embedded fragment and fail), a character class, an escape, the dot, an
anchor, or a literal character; counted repetition braces are outside
the fragment and fail, as do stray metacharacters. At the repetition
level it reads an atom and at most one following quantifier; a
quantifier applied to an anchor is an error, as Python reports nothing
to repeat, and a second quantifier in a row fails when the concatenation
level tries to read the stray quantifier as an atom. The concatenation
level stops at a closing parenthesis, an alternation bar, or the end of
the pattern, an empty concatenation being the empty expression; the
alternation level reads a bar-separated list of concatenations,
associated to the right, with the left alternative preferred. -/
def parseM (fuel : Nat) (mode : PMode) (n : Nat) (cs : List Char) :
    Option (Ast × Nat × List Char) :=
  match fuel with
  | 0 => none
  | fuel + 1 =>
    match mode with
    | PMode.atom =>
      match cs with
      | [] => none
      | '(' :: '?' :: _ => none
      | '(' :: rest =>
        match parseM fuel PMode.alt (n + 1) rest with
        | some (a, n', ')' :: rest') => some (Ast.group (n + 1) a, n', rest')
        | _ => none
      | '[' :: '^' :: rest =>
        (parseClassItems fuel true rest).map
          (fun pr => (Ast.cls true pr.1, n, pr.2))
      | '[' :: rest =>
        (parseClassItems fuel true rest).map
          (fun pr => (Ast.cls false pr.1, n, pr.2))
      | '\\' :: e :: rest =>
        (match classEscape e with
         | some rs => some (Ast.cls false rs, n, rest)
         | none =>
           match classEscape e.toLower with
           | some rs => some (Ast.cls true rs, n, rest)
           | none =>
             if e.isAlpha || e.isDigit then none
             else some (Ast.lit e, n, rest))
      | '.' :: rest => some (Ast.dot, n, rest)
      | '^' :: rest => some (Ast.bol, n, rest)
      | '$' :: rest => some (Ast.eol, n, rest)
      | '{' :: _ => none
      | c :: rest =>
        if c = ')' || c = '|' || c = '\\' || isQuantifier c then none
        else some (Ast.lit c, n, rest)
    | PMode.rep =>
      match parseM fuel PMode.atom n cs with
      | none => none
      | some (a, n', rest) =>
        match rest with
        | q :: rest' =>
          if isQuantifier q then
            match a with
            | Ast.bol => none
            | Ast.eol => none
            | _ =>
              if q = '*' then some (Ast.star a, n', rest')
              else if q = '+' then some (Ast.seq a (Ast.star a), n', rest')
              else some (Ast.alt a Ast.eps, n', rest')
          else some (a, n', rest)
        | [] => some (a, n', rest)
    | PMode.cat =>
      match cs with
      | [] => some (Ast.eps, n, [])
      | ')' :: _ => some (Ast.eps, n, cs)
      | '|' :: _ => some (Ast.eps, n, cs)
      | _ =>
        match parseM fuel PMode.rep n cs with
        | none => none
        | some (a, n', rest) =>
          match parseM fuel PMode.cat n' rest with
          | none => none
          | some (b, n'', rest') => some (Ast.seq a b, n'', rest')
    | PMode.alt =>
      match parseM fuel PMode.cat n cs with
      | none => none
      | some (a, n', rest) =>
        match rest with
        | '|' :: rest' =>
          match parseM fuel PMode.alt n' rest' with
          | none => none
          | some (b, n'', rest'') => some (Ast.alt a b, n'', rest'')
        | _ => some (a, n', rest)

/-- parseAlt is the top grammar level of parseM. -/
def parseAlt (fuel : Nat) (n : Nat) (cs : List Char) :
    Option (Ast × Nat × List Char) :=
  parseM fuel PMode.alt n cs


/-- compile embeds re.compile on the embedded fragment: the whole pattern
must parse with no characters left over; the count of capturing groups
is returned with the tree. A none result embeds a raised re.error. -/
def compile (pat : String) : Option (Ast × Nat) :=
  match parseAlt (4 * pat.length + 16) 0 pat.data with
  | some (a, n, []) => some (a, n)
  | _ => none

/-- astSize measures a tree; it only feeds the matcher's fuel bound. -/
def astSize : Ast → Nat
  | Ast.eps => 1
  | Ast.lit _ => 1
  | Ast.dot => 1
  | Ast.cls _ _ => 1
  | Ast.bol => 1
  | Ast.eol => 1
  | Ast.seq a b => astSize a + astSize b + 1
  | Ast.alt a b => astSize a + astSize b + 1
  | Ast.star a => astSize a + 1
  | Ast.group _ a => astSize a + 1

/-- mrun is the backtracking matcher: given the subject, fuel, a tree, a
position and the current group assignment, it returns every reachable
(end position, groups) pair in Python's priority order — left
alternative first, greedy repetition longest first. The star only
recurses on iterations that consumed input, mirroring Python's refusal
to repeat an empty match. The dot refuses a newline, and the end anchor
accepts the end of the subject or the position just before one final
newline. -/
def mrun (input : List Char) : Nat → Ast → Nat → List (Option String) →
    List (Nat × List (Option String))
  | 0, _, _, _ => []
  | fuel + 1, ast, p, g =>
    match ast with
    | Ast.eps => [(p, g)]
    | Ast.lit c =>
      match input[p]? with
      | some c' => if c' = c then [(p + 1, g)] else []
      | none => []
    | Ast.dot =>
      match input[p]? with
      | some c' => if c' = '\n' then [] else [(p + 1, g)]
      | none => []
    | Ast.cls neg items =>
      match input[p]? with
      | some c' =>
        let mem := items.any (fun r => r.1 ≤ c' && c' ≤ r.2)
        if (if neg then !mem else mem) then [(p + 1, g)] else []
      | none => []
    | Ast.bol => if p = 0 then [(p, g)] else []
    | Ast.eol =>
      if p = input.length || (p + 1 = input.length && input[p]? = some '\n') then
        [(p, g)]
      else []
    | Ast.seq a b =>
      (mrun input fuel a p g).flatMap (fun pg => mrun input fuel b pg.1 pg.2)
    | Ast.alt a b => mrun input fuel a p g ++ mrun input fuel b p g
    | Ast.star a =>
      (((mrun input fuel a p g).filter (fun pg => p < pg.1)).flatMap
        (fun pg => mrun input fuel (Ast.star a) pg.1 pg.2)) ++ [(p, g)]
    | Ast.group idx a =>
      (mrun input fuel a p g).map
        (fun pg =>
          (pg.1, pg.2.set (idx - 1)
            (some (String.mk ((input.drop p).take (pg.1 - p))))))

/-- mfuel is a generous fuel bound for the matcher, sufficient for the
concrete patterns and subjects this development evaluates. -/
def mfuel (a : Ast) (input : List Char) : Nat :=
  (input.length + 2) * (astSize a + 2) * 4

/-- MatchRes carries what the pipeline reads off a Python match object:
the end position and the tuple of captured groups (group one first). -/
structure MatchRes where
  endPos : Nat
  groups : List (Option String)
deriving Repr

/-- searchAux tries the compiled tree at successive start positions,
returning the first (leftmost) position's preferred result. -/
def searchAux (a : Ast) (ng : Nat) (input : List Char) :
    Nat → Nat → Option MatchRes
  | 0, _ => none
  | k + 1, start =>
    match mrun input (mfuel a input) a start (List.replicate ng none) with
    | pg :: _ => some ⟨pg.1, pg.2⟩
    | [] => searchAux a ng input k (start + 1)

/-- search embeds re.search on a compiled tree: unanchored, leftmost
match, preferred alternative, with the group assignment of that match. -/
def search (a : Ast) (ng : Nat) (s : String) : Option MatchRes :=
  searchAux a ng s.data (s.data.length + 1) 0

/-- matchAt0 embeds the truth value of re.match on a compiled tree: does
any match begin at position zero. -/
def matchAt0 (a : Ast) (ng : Nat) (s : String) : Bool :=
  ¬ (mrun s.data (mfuel a s.data) a 0 (List.replicate ng none)).isEmpty

/-- matchB embeds bool(re.match(pat, s)) with a compile step: a none
result embeds a raised re.error. -/
def matchB (pat s : String) : Option Bool :=
  match compile pat with
  | none => none
  | some (a, ng) => some (matchAt0 a ng s)

/-- fullmatchB decides whether some match of the pattern spans the whole
subject, beginning at position zero and ending at its length: the
full-string reading of matching that the specification's validation
clause describes. A none result embeds a raised re.error. -/
def fullmatchB (pat s : String) : Option Bool :=
  match compile pat with
  | none => none
  | some (a, ng) =>
    some ((mrun s.data (mfuel a s.data) a 0 (List.replicate ng none)).any
      (fun pg => pg.1 = s.data.length))

end Rx

/-- extract_id_from_url embeds the source's extract_id_from_url: a
property with no truthy url_pattern yields nothing; a pattern that fails
to compile yields nothing (re.error caught, warning logged); a match
whose group tuple is empty yields nothing; otherwise group one of the
first match of the unanchored search is returned (none when that group
did not take part in the match, as in Python). -/
def extract_id_from_url (url : String) (url_pattern : Option String) :
    Option String :=
  if ¬ truthyStr url_pattern then none
  else
    match Rx.compile (url_pattern.getD "") with
    | none => none
    | some (a, ng) =>
      match Rx.search a ng url with
      | none => none
      | some m => if m.groups = [] then none else (m.groups.head?).join

/-- validate_id_format embeds the source's validate_id_format: a falsy
constraint (absent or empty) validates everything; otherwise the
constraint is wrapped in the caret and dollar anchors and given to
re.match; a constraint whose wrapped form fails to compile makes
validation return false (re.error caught, warning logged). -/
def validate_id_format (id_value : String) (format_constraint : Option String) :
    Bool :=
  if ¬ truthyStr format_constraint then true
  else
    match Rx.matchB ("^" ++ format_constraint.getD "" ++ "$") id_value with
    | none => false
    | some b => b

/-- PlatformItem mirrors the platform-item dicts built from Wikidata
query results (id, label, description, website). -/
structure PlatformItem where
  id : String
  label : String
  description : String
  website : String
deriving Repr, DecidableEq

/-- EntityData is what the knowledge-base oracle returns for one
property id: the fields get_property_details reads out of the wbgetentities
response. The property id itself is not part of it, because the source
stamps the requested id into the record it builds. -/
structure EntityData where
  datatype : String
  label : String
  formatter_url : Option String
  url_pattern : Option String
  format_constraint : Option String
  applicable_item : Option String
deriving Repr, DecidableEq

/-- PropertyDetails mirrors the full property_data dict built by
get_property_details. -/
structure PropertyDetails where
  id : String
  datatype : String
  label : String
  formatter_url : Option String
  url_pattern : Option String
  format_constraint : Option String
  applicable_item : Option String
deriving Repr, DecidableEq

/-- IdProperty mirrors the simplified property dicts that populate
identifier_properties: the five keys id, label, formatter_url,
url_pattern and format_constraint. The simplified dicts carry no
applicable_item key, so reading that key with dict.get yields None; the
field is kept here, always set to none by the simplifying constructors,
to embed exactly that read. -/
structure IdProperty where
  id : String
  label : String
  formatter_url : Option String
  url_pattern : Option String
  format_constraint : Option String
  applicable_item : Option String
deriving Repr, DecidableEq

/-- Gateway is the knowledge-base oracle: the three remote queries the
pipeline issues, as pure functions. A none answer embeds a transport
failure (or, for the platform search, an empty result set reported as
None by the source). -/
structure Gateway where
  fetchEntity : String → Option EntityData
  platformItems : String → Option (List PlatformItem)
  itemBacklinks : String → Option (List String)

/-- KbCall records one oracle invocation, so that statements about which
queries a resolution issues can be proved. -/
inductive KbCall where
  | fetchProperty (pid : String)
  | searchItems (domain : String)
  | backlinks (item : String)
deriving Repr, DecidableEq

/-- isFetchCall recognises the direct property-detail fetches among the
recorded oracle invocations. -/
def isFetchCall : KbCall → Bool
  | KbCall.fetchProperty _ => true
  | _ => false

/-- get_property_details embeds the source's get_property_details: one
oracle fetch, whose parsed fields are stamped with the requested
property id. The labels, descriptions and related-properties fields,
which no caller of the pipeline reads, are not modelled. -/
def get_property_details (gw : Gateway) (property_id : String) :
    Option PropertyDetails × List KbCall :=
  (match gw.fetchEntity property_id with
   | none => none
   | some e =>
     some ⟨property_id, e.datatype, e.label, e.formatter_url, e.url_pattern,
           e.format_constraint, e.applicable_item⟩,
   [KbCall.fetchProperty property_id])

/-- simplifyDetails builds the simplified five-key property dict from the
full details, as both get_property_by_id and the discovery loop do; the
absent applicable_item key is embedded as none. -/
def simplifyDetails (d : PropertyDetails) : IdProperty :=
  ⟨d.id, d.label, d.formatter_url, d.url_pattern, d.format_constraint, none⟩

/-- get_property_by_id embeds the source's get_property_by_id: fetch the
full details and return the simplified dict, or None when the fetch
failed. -/
def get_property_by_id (gw : Gateway) (property_id : String) :
    Option IdProperty × List KbCall :=
  let r := get_property_details gw property_id
  (r.1.map simplifyDetails, r.2)

/-- SearchData mirrors the platform_data dict built by
get_platform_metadata_via_search (domain, wikidata_items,
identifier_properties). -/
structure SearchData where
  domain : String
  wikidata_items : List PlatformItem
  identifier_properties : List IdProperty
deriving Repr, DecidableEq

/-- appliesToItem embeds the two-step applies_to_item computation of the
discovery loop: true when the property declares the current item as its
applicable item, or else when its datatype is the external-id marker. -/
def appliesToItem (item_id : String) (d : PropertyDetails) : Bool :=
  if ¬ (d.applicable_item = some item_id) ∧ d.datatype = "external-id" then true
  else decide (d.applicable_item = some item_id)

/-- searchPropStep embeds the filtering body of the discovery loop for
one fetched property (the two-step applies_to_item computation is
appliesToItem above): keep it only if it has a truthy formatter URL or
URL pattern and it applies to the current item; a kept property is
appended in simplified form unless its id is already present. -/
def searchPropStep (item_id : String) (acc : List IdProperty)
    (d : PropertyDetails) : List IdProperty :=
  if truthyStr d.formatter_url || truthyStr d.url_pattern then
    if appliesToItem item_id d then
      if (acc.map IdProperty.id).contains d.id then acc
      else acc ++ [simplifyDetails d]
    else acc
  else acc

/-- searchInner embeds one pass of the inner discovery loop: fetch the
property details (recording the call; the courtesy delay of the source
has no observable effect here) and, if the fetch succeeded, run the
filtering step. -/
def searchInner (gw : Gateway) (item_id : String)
    (st : List IdProperty × List KbCall) (pid : String) :
    List IdProperty × List KbCall :=
  match (get_property_details gw pid).1 with
  | none => (st.1, st.2 ++ [KbCall.fetchProperty pid])
  | some d => (searchPropStep item_id st.1 d, st.2 ++ [KbCall.fetchProperty pid])

/-- searchOuter embeds one pass of the outer discovery loop: look up the
identifier properties linked to one platform item (recording the call)
and fold the inner loop over them; a falsy answer (failure or empty
list) skips the item. -/
def searchOuter (gw : Gateway) (st : List IdProperty × List KbCall)
    (item : PlatformItem) : List IdProperty × List KbCall :=
  let st1 := (st.1, st.2 ++ [KbCall.backlinks item.id])
  match gw.itemBacklinks item.id with
  | none => st1
  | some pids => if pids = [] then st1 else pids.foldl (searchInner gw item.id) st1

/-- get_platform_metadata_via_search embeds the source function of the
same name: find the platform items for the domain (recording the call);
a falsy answer aborts with None; otherwise fold the discovery loops over
the items and return the platform data. -/
def get_platform_metadata_via_search (gw : Gateway) (domain : String) :
    Option SearchData × List KbCall :=
  let tr0 := [KbCall.searchItems domain]
  match gw.platformItems domain with
  | none => (none, tr0)
  | some items =>
    if items = [] then (none, tr0)
    else
      let st := items.foldl (searchOuter gw) ([], tr0)
      (some ⟨domain, items, st.1⟩, st.2)

/-- KNOWN_PLATFORMS is the source's static table of well-known domains
and their property ids. -/
def KNOWN_PLATFORMS : List (String × List String) :=
  [("openreview.net", ["P8968", "P8964", "P8965"]),
   ("arxiv.org", ["P818"]),
   ("doi.org", ["P356"]),
   ("orcid.org", ["P496"]),
   ("semanticscholar.org", ["P4028"]),
   ("pubmed.ncbi.nlm.nih.gov", ["P698"])]

/-- ExtractedEntry mirrors the per-property entry stored in
extracted_ids: the raw identifier and the property dict it came from. -/
structure ExtractedEntry where
  id : String
  property : IdProperty
deriving Repr, DecidableEq

/-- PlatformData mirrors the aggregate platform_data dict that
analyze_research_platform builds and returns. -/
structure PlatformData where
  domain : String
  wikidata_items : List PlatformItem
  identifier_properties : List IdProperty
  extracted_ids : List (String × ExtractedEntry)
  formatted_urls : List (String × String)
deriving Repr, DecidableEq

/-- fastStep embeds one pass of the known-platform loop of
analyze_research_platform: fetch the simplified property dict for one
registry id; on success, first (while no platform has been recorded yet)
append a synthesised platform item if the dict has a truthy
applicable_item — a branch the simplified dicts can never take, since
they carry no such key — then append the property. The state is the
accumulating platform data, the platform_found flag and the call
trace. -/
def fastStep (gw : Gateway) (domain : String)
    (st : PlatformData × Bool × List KbCall) (prop_id : String) :
    PlatformData × Bool × List KbCall :=
  match (get_property_by_id gw prop_id).1 with
  | none => (st.1, st.2.1, st.2.2 ++ [KbCall.fetchProperty prop_id])
  | some pd =>
    if ¬ st.2.1 ∧ truthyStr pd.applicable_item then
      match pd.applicable_item with
      | some item_id =>
        ({ st.1 with
           wikidata_items := st.1.wikidata_items ++
             [⟨item_id, "Item " ++ item_id, "", "https://" ++ domain⟩],
           identifier_properties := st.1.identifier_properties ++ [pd] },
         true, st.2.2 ++ [KbCall.fetchProperty prop_id])
      | none =>
        ({ st.1 with
           identifier_properties := st.1.identifier_properties ++ [pd] },
         st.2.1, st.2.2 ++ [KbCall.fetchProperty prop_id])
    else
      ({ st.1 with
         identifier_properties := st.1.identifier_properties ++ [pd] },
       st.2.1, st.2.2 ++ [KbCall.fetchProperty prop_id])

/-- extractStep embeds one pass of the extraction loop: extract an
identifier with the property's own pattern; a truthy extraction is kept
only when it validates against the property's format constraint, and a
canonical URL is recorded when the property has a truthy formatter. -/
def extractStep (url : String) (data : PlatformData) (p : IdProperty) :
    PlatformData :=
  match extract_id_from_url url p.url_pattern with
  | none => data
  | some extracted_id =>
    if extracted_id = "" then data
    else if validate_id_format extracted_id p.format_constraint then
      if truthyStr p.formatter_url then
        { data with
          extracted_ids := dictInsert data.extracted_ids p.id ⟨extracted_id, p⟩,
          formatted_urls := dictInsert data.formatted_urls p.id
            (applyFormatter (p.formatter_url.getD "") extracted_id) }
      else
        { data with
          extracted_ids := dictInsert data.extracted_ids p.id ⟨extracted_id, p⟩ }
    else data

/-- fallbackStep embeds one pass of the DOI fallback loop: for a property
with a truthy URL pattern, on the DOI-resolution domain only, search the
URL with the hard-coded DOI pattern and record the captured group (and a
formatted URL when the property has a truthy formatter), with no
format-constraint validation. -/
def fallbackStep (url : String) (data : PlatformData) (p : IdProperty) :
    PlatformData :=
  if truthyStr p.url_pattern then
    if data.domain = "doi.org" then
      match doiSearch url with
      | some extracted_id =>
        if truthyStr p.formatter_url then
          { data with
            extracted_ids := dictInsert data.extracted_ids p.id ⟨extracted_id, p⟩,
            formatted_urls := dictInsert data.formatted_urls p.id
              (applyFormatter (p.formatter_url.getD "") extracted_id) }
        else
          { data with
            extracted_ids := dictInsert data.extracted_ids p.id ⟨extracted_id, p⟩ }
      | none => data
    else data
  else data

/-- mainLoop embeds the first extraction section of
analyze_research_platform: initialise the two result dicts and run the
per-property extraction loop. -/
def mainLoop (url : String) (data : PlatformData) : PlatformData :=
  let data0 := { data with extracted_ids := [], formatted_urls := [] }
  data0.identifier_properties.foldl (extractStep url) data0

/-- runExtraction embeds the whole extraction section of
analyze_research_platform: the per-property extraction loop and, only if
it recorded nothing, the DOI fallback loop over the same properties. -/
def runExtraction (url : String) (data : PlatformData) : PlatformData :=
  let data1 := mainLoop url data
  if data1.extracted_ids = [] then
    data1.identifier_properties.foldl (fallbackStep url) data1
  else data1

/-- fastFold runs the known-platform loop from the initial platform data
for a domain: the empty record, the false platform_found flag and an
empty trace. -/
def fastFold (gw : Gateway) (domain : String) (prop_ids : List String) :
    PlatformData × Bool × List KbCall :=
  prop_ids.foldl (fastStep gw domain) (⟨domain, [], [], [], []⟩, false, [])

/-- knownPhase embeds the first approach of analyze_research_platform:
when the domain is in KNOWN_PLATFORMS, run the known-platform loop;
otherwise keep the empty platform data (the platform_found flag is local
to the loop and dropped here). -/
def knownPhase (gw : Gateway) (domain : String) : PlatformData × List KbCall :=
  match pyLookup KNOWN_PLATFORMS domain with
  | some prop_ids =>
    ((fastFold gw domain prop_ids).1, (fastFold gw domain prop_ids).2.2)
  | none => (⟨domain, [], [], [], []⟩, [])

/-- searchPhase embeds the second approach of analyze_research_platform:
only when the first approach produced no identifier properties, run the
Wikidata search; a truthy search result replaces the platform data
wholesale. -/
def searchPhase (gw : Gateway) (domain : String)
    (s1 : PlatformData × List KbCall) : PlatformData × List KbCall :=
  if s1.1.identifier_properties = [] then
    match (get_platform_metadata_via_search gw domain).1 with
    | some sr =>
      (⟨sr.domain, sr.wikidata_items, sr.identifier_properties, [], []⟩,
       s1.2 ++ (get_platform_metadata_via_search gw domain).2)
    | none => (s1.1, s1.2 ++ (get_platform_metadata_via_search gw domain).2)
  else s1

/-- explicitPhase embeds the explicit-property step of
analyze_research_platform: a truthy property id not already present is
fetched and appended on success. -/
def explicitPhase (gw : Gateway) (property_id : Option String)
    (s2 : PlatformData × List KbCall) : PlatformData × List KbCall :=
  match property_id with
  | some pid =>
    if pid ≠ "" ∧ ¬ (s2.1.identifier_properties.map IdProperty.id).contains pid then
      match (get_property_by_id gw pid).1 with
      | some pd =>
        ({ s2.1 with
           identifier_properties := s2.1.identifier_properties ++ [pd] },
         s2.2 ++ [KbCall.fetchProperty pid])
      | none => (s2.1, s2.2 ++ [KbCall.fetchProperty pid])
    else s2
  | none => s2

/-- analyze_research_platform embeds the source's pipeline entry point as
the composition of the three discovery phases and the extraction
section. The only way it fails is the unparseable-netloc exception
escaping get_domain_from_url; every other condition degrades to less
data. The second component is the trace of oracle invocations, in
order. -/
def analyze_research_platform (gw : Gateway) (url : String)
    (property_id : Option String) : Option PlatformData × List KbCall :=
  match get_domain_from_url url with
  | none => (none, [])
  | some domain =>
    (some (runExtraction url
      (explicitPhase gw property_id
        (searchPhase gw domain (knownPhase gw domain))).1),
     (explicitPhase gw property_id
       (searchPhase gw domain (knownPhase gw domain))).2)


/-! Concrete fixtures used by the witnesses. -/

/-- gwDemo is a concrete oracle for witnesses: it knows one property,
the OpenReview submission id, with a formatter, a URL pattern and a
format constraint, and answers nothing else. -/
def gwDemo : Gateway :=
  ⟨fun pid =>
    if pid = "P8968" then
      some ⟨"external-id", "OpenReview submission",
            some "https://openreview.net/forum?id=$1",
            some "forum\\?id=([A-Za-z0-9_-]+)",
            some "[A-Za-z0-9_-]+", none⟩
    else none,
   fun _ => none, fun _ => none⟩

/-- propP8968 is the simplified property dict gwDemo yields for the
OpenReview submission id. -/
def propP8968 : IdProperty :=
  ⟨"P8968", "OpenReview submission",
   some "https://openreview.net/forum?id=$1",
   some "forum\\?id=([A-Za-z0-9_-]+)",
   some "[A-Za-z0-9_-]+", none⟩

/-- resDemo is the full resolution result of gwDemo on the sample
OpenReview URL. -/
def resDemo : PlatformData :=
  ⟨"openreview.net", [], [propP8968],
   [("P8968", ⟨"et5l9qPUhm", propP8968⟩)],
   [("P8968", "https://openreview.net/forum?id=et5l9qPUhm")]⟩

/-- gwEmpty is the oracle that knows nothing. -/
def gwEmpty : Gateway :=
  ⟨fun _ => none, fun _ => none, fun _ => none⟩

/-- propBadPattern is a property fixture whose URL pattern is the
non-compiling single parenthesis. -/
def propBadPattern : IdProperty :=
  ⟨"PBAD", "bad pattern", none, some "(", none, none⟩

/-- emptyData is an empty platform record fixture. -/
def emptyData : PlatformData :=
  ⟨"example.org", [], [], [], []⟩

/-- propDoiBad is a DOI property fixture whose own URL pattern does not
compile (so the per-property extraction yields nothing) and whose format
constraint rejects everything relevant. -/
def propDoiBad : IdProperty :=
  ⟨"P356", "DOI", some "https://doi.org/$1", some "(", some "Z", none⟩

/-- dataDoi is a post-discovery platform record fixture on the DOI
domain carrying only propDoiBad. -/
def dataDoi : PlatformData :=
  ⟨"doi.org", [], [propDoiBad], [], []⟩

/-- propArxiv is a property fixture whose pattern extracts digits and
whose constraint rejects them. -/
def propArxiv : IdProperty :=
  ⟨"P818", "arXiv ID", none, some "abs/(\\d+)", some "Z", none⟩

/-- dataArxiv is a post-discovery platform record fixture carrying only
propArxiv. -/
def dataArxiv : PlatformData :=
  ⟨"arxiv.org", [], [propArxiv], [], []⟩


/-! Sanity examples. -/

example : doiSearch "https://doi.org/10.1038/s41586-021-03819-2" =
    some "10.1038/s41586-021-03819-2" := by decide

example : get_domain_from_url "https://doi.org/10.1038/s41586-021-03819-2" =
    some "doi.org" := by decide

example : get_domain_from_url "nonsense" = some "" := by decide

example : get_domain_from_url "http://[abc" = none := by decide

example : applyFormatter "https://doi.org/$1" "10.1/x" = "https://doi.org/10.1/x" := by
  decide



/-! Lemma layer: association-list dictionaries. -/

theorem pyLookup_dictInsert_self {α : Type} (l : List (String × α)) (k : String)
    (v : α) : pyLookup (dictInsert l k v) k = some v := by
  induction l with
  | nil => simp [dictInsert, pyLookup]
  | cons h t ih =>
    obtain ⟨k', v'⟩ := h
    by_cases hk : k' = k
    · simp [dictInsert, hk, pyLookup]
    · simp [dictInsert, hk, pyLookup, ih]

theorem pyLookup_dictInsert_ne {α : Type} (l : List (String × α)) (k k' : String)
    (v : α) (h : k' ≠ k) : pyLookup (dictInsert l k' v) k = pyLookup l k := by
  induction l with
  | nil => simp [dictInsert, pyLookup, h]
  | cons hd t ih =>
    obtain ⟨k₀, v₀⟩ := hd
    by_cases hk : k₀ = k'
    · subst hk
      simp [dictInsert, pyLookup, h]
    · simp [dictInsert, hk, pyLookup, ih]

/-! Lemma layer: the extraction and fallback steps leave every component
except the two result dicts unchanged, and each step touches at most the
dictionary key of its own property. -/

theorem extractStep_domain (url : String) (st : PlatformData) (p : IdProperty) :
    (extractStep url st p).domain = st.domain := by
  unfold extractStep
  split <;> (try rfl) <;> split <;> (try rfl) <;> split <;> (try rfl) <;> split <;> rfl

theorem extractStep_props (url : String) (st : PlatformData) (p : IdProperty) :
    (extractStep url st p).identifier_properties = st.identifier_properties := by
  unfold extractStep
  split <;> (try rfl) <;> split <;> (try rfl) <;> split <;> (try rfl) <;> split <;> rfl

theorem extractStep_items (url : String) (st : PlatformData) (p : IdProperty) :
    (extractStep url st p).wikidata_items = st.wikidata_items := by
  unfold extractStep
  split <;> (try rfl) <;> split <;> (try rfl) <;> split <;> (try rfl) <;> split <;> rfl

theorem extractStep_lookup_other (url : String) (st : PlatformData)
    (p : IdProperty) (k : String) (h : p.id ≠ k) :
    pyLookup (extractStep url st p).extracted_ids k =
      pyLookup st.extracted_ids k := by
  unfold extractStep
  split
  · rfl
  · split
    · rfl
    · split
      · split
        · simp [pyLookup_dictInsert_ne _ _ _ _ h]
        · simp [pyLookup_dictInsert_ne _ _ _ _ h]
      · rfl

theorem fallbackStep_domain (url : String) (st : PlatformData) (p : IdProperty) :
    (fallbackStep url st p).domain = st.domain := by
  unfold fallbackStep
  split <;> (try rfl) <;> split <;> (try rfl) <;> split <;> (try rfl) <;> split <;> rfl

theorem fallbackStep_items (url : String) (st : PlatformData) (p : IdProperty) :
    (fallbackStep url st p).wikidata_items = st.wikidata_items := by
  unfold fallbackStep
  split <;> (try rfl) <;> split <;> (try rfl) <;> split <;> (try rfl) <;> split <;> rfl

theorem fallbackStep_props (url : String) (st : PlatformData) (p : IdProperty) :
    (fallbackStep url st p).identifier_properties = st.identifier_properties := by
  unfold fallbackStep
  split <;> (try rfl) <;> split <;> (try rfl) <;> split <;> (try rfl) <;> split <;> rfl

theorem fallbackStep_lookup_other (url : String) (st : PlatformData)
    (p : IdProperty) (k : String) (h : p.id ≠ k) :
    pyLookup (fallbackStep url st p).extracted_ids k =
      pyLookup st.extracted_ids k := by
  unfold fallbackStep
  split
  · split
    · split
      · split
        · simp [pyLookup_dictInsert_ne _ _ _ _ h]
        · simp [pyLookup_dictInsert_ne _ _ _ _ h]
      · rfl
    · rfl
  · rfl

/-! Lemma layer: folds of the extraction and fallback steps preserve
every component except the two result dicts. -/

theorem foldl_extractStep_domain (url : String) (props : List IdProperty) :
    ∀ st : PlatformData, (props.foldl (extractStep url) st).domain = st.domain := by
  induction props with
  | nil => intro st; rfl
  | cons p t ih =>
    intro st
    simp only [List.foldl_cons]
    rw [ih, extractStep_domain]

theorem foldl_extractStep_props (url : String) (props : List IdProperty) :
    ∀ st : PlatformData,
      (props.foldl (extractStep url) st).identifier_properties =
        st.identifier_properties := by
  induction props with
  | nil => intro st; rfl
  | cons p t ih =>
    intro st
    simp only [List.foldl_cons]
    rw [ih, extractStep_props]

theorem foldl_extractStep_items (url : String) (props : List IdProperty) :
    ∀ st : PlatformData,
      (props.foldl (extractStep url) st).wikidata_items = st.wikidata_items := by
  induction props with
  | nil => intro st; rfl
  | cons p t ih =>
    intro st
    simp only [List.foldl_cons]
    rw [ih, extractStep_items]

theorem foldl_fallbackStep_domain (url : String) (props : List IdProperty) :
    ∀ st : PlatformData, (props.foldl (fallbackStep url) st).domain = st.domain := by
  induction props with
  | nil => intro st; rfl
  | cons p t ih =>
    intro st
    simp only [List.foldl_cons]
    rw [ih, fallbackStep_domain]

theorem foldl_fallbackStep_props (url : String) (props : List IdProperty) :
    ∀ st : PlatformData,
      (props.foldl (fallbackStep url) st).identifier_properties =
        st.identifier_properties := by
  induction props with
  | nil => intro st; rfl
  | cons p t ih =>
    intro st
    simp only [List.foldl_cons]
    rw [ih, fallbackStep_props]

theorem foldl_fallbackStep_items (url : String) (props : List IdProperty) :
    ∀ st : PlatformData,
      (props.foldl (fallbackStep url) st).wikidata_items = st.wikidata_items := by
  induction props with
  | nil => intro st; rfl
  | cons p t ih =>
    intro st
    simp only [List.foldl_cons]
    rw [ih, fallbackStep_items]

theorem mainLoop_domain (url : String) (data : PlatformData) :
    (mainLoop url data).domain = data.domain := by
  unfold mainLoop
  rw [foldl_extractStep_domain]

theorem mainLoop_props (url : String) (data : PlatformData) :
    (mainLoop url data).identifier_properties = data.identifier_properties := by
  unfold mainLoop
  rw [foldl_extractStep_props]

theorem mainLoop_items (url : String) (data : PlatformData) :
    (mainLoop url data).wikidata_items = data.wikidata_items := by
  unfold mainLoop
  rw [foldl_extractStep_items]

theorem runExtraction_domain (url : String) (data : PlatformData) :
    (runExtraction url data).domain = data.domain := by
  simp only [runExtraction]
  split
  · rw [foldl_fallbackStep_domain, mainLoop_domain]
  · rw [mainLoop_domain]

theorem runExtraction_props (url : String) (data : PlatformData) :
    (runExtraction url data).identifier_properties =
      data.identifier_properties := by
  simp only [runExtraction]
  split
  · rw [foldl_fallbackStep_props, mainLoop_props]
  · rw [mainLoop_props]

theorem runExtraction_items (url : String) (data : PlatformData) :
    (runExtraction url data).wikidata_items = data.wikidata_items := by
  simp only [runExtraction]
  split
  · rw [foldl_fallbackStep_items, mainLoop_items]
  · rw [mainLoop_items]

/-! Lemma layer: behaviour of the two loops on individual dictionary
keys. -/

theorem extract_id_compile_fail (url : String) (up : Option String)
    (h : Rx.compile (up.getD "") = none) :
    extract_id_from_url url up = none := by
  unfold extract_id_from_url
  split
  · rfl
  · rw [h]

theorem extractStep_discard (url : String) (st : PlatformData) (r : IdProperty)
    (h : match extract_id_from_url url r.url_pattern with
         | none => True
         | some s => s = "" ∨ validate_id_format s r.format_constraint = false) :
    extractStep url st r = st := by
  unfold extractStep
  split
  · rfl
  · rename_i s heq
    rw [heq] at h
    simp only [] at h
    rcases h with h | h <;> simp [h]

theorem fallbackStep_lookup_self (url : String) (st : PlatformData)
    (q : IdProperty) (g : String)
    (hdom : st.domain = "doi.org")
    (hpat : truthyStr q.url_pattern = true)
    (hdoi : doiSearch url = some g) :
    pyLookup (fallbackStep url st q).extracted_ids q.id = some ⟨g, q⟩ := by
  unfold fallbackStep
  rw [hpat, hdom, hdoi]
  simp only [if_pos, if_true]
  split
  · simp [pyLookup_dictInsert_self]
  · simp [pyLookup_dictInsert_self]

theorem foldl_fallbackStep_lookup_preserved (url : String)
    (props : List IdProperty) :
    ∀ (st : PlatformData) (k : String), (∀ q ∈ props, q.id ≠ k) →
      pyLookup ((props.foldl (fallbackStep url) st).extracted_ids) k =
        pyLookup st.extracted_ids k := by
  induction props with
  | nil => intro st k _; rfl
  | cons q t ih =>
    intro st k hne
    simp only [List.foldl_cons]
    rw [ih _ _ (fun r hr => hne r (List.mem_cons_of_mem q hr)),
        fallbackStep_lookup_other url st q k (hne q (List.mem_cons_self q t))]

theorem foldl_fallbackStep_lookup (url : String) (props : List IdProperty) :
    ∀ (st : PlatformData) (p : IdProperty) (g : String),
      st.domain = "doi.org" → doiSearch url = some g →
      (props.map IdProperty.id).Nodup → p ∈ props →
      truthyStr p.url_pattern = true →
      pyLookup ((props.foldl (fallbackStep url) st).extracted_ids) p.id =
        some ⟨g, p⟩ := by
  induction props with
  | nil => intro st p g _ _ _ hmem _; exact absurd hmem (List.not_mem_nil p)
  | cons q t ih =>
    intro st p g hdom hdoi hnodup hmem hpat
    simp only [List.foldl_cons]
    rw [List.map_cons] at hnodup
    have hn1 := (List.nodup_cons.mp hnodup).1
    have hn2 := (List.nodup_cons.mp hnodup).2
    rcases List.mem_cons.mp hmem with hpq | hpt
    · subst hpq
      have hq : pyLookup (fallbackStep url st p).extracted_ids p.id =
          some ⟨g, p⟩ := fallbackStep_lookup_self url st p g hdom hpat hdoi
      have hnot : ∀ r ∈ t, r.id ≠ p.id := by
        intro r hr hcontra
        exact hn1 (hcontra ▸ List.mem_map_of_mem IdProperty.id hr)
      rw [foldl_fallbackStep_lookup_preserved url t _ _ hnot, hq]
    · have hdom' : (fallbackStep url st q).domain = "doi.org" := by
        rw [fallbackStep_domain]; exact hdom
      exact ih _ p g hdom' hdoi hn2 hpt hpat

theorem foldl_extractStep_lookup_none (url : String) (props : List IdProperty) :
    ∀ (st : PlatformData) (k : String),
      pyLookup st.extracted_ids k = none →
      (∀ r ∈ props, r.id = k →
        (match extract_id_from_url url r.url_pattern with
         | none => True
         | some s => s = "" ∨ validate_id_format s r.format_constraint = false)) →
      pyLookup ((props.foldl (extractStep url) st).extracted_ids) k = none := by
  induction props with
  | nil => intro st k h _; exact h
  | cons r t ih =>
    intro st k h hdisc
    simp only [List.foldl_cons]
    by_cases hk : r.id = k
    · rw [extractStep_discard url st r (hdisc r (List.mem_cons_self r t) hk)]
      exact ih st k h (fun r' hr' => hdisc r' (List.mem_cons_of_mem r hr'))
    · refine ih _ k ?_ (fun r' hr' => hdisc r' (List.mem_cons_of_mem r hr'))
      rw [extractStep_lookup_other url st r k hk]
      exact h

/-! Lemma layer: the known-platform fast path. The simplified property
dicts carry no applicable_item key, so the platform-item branch of the
fast path is dead and the fold only appends properties (stamped with the
requested ids) and records direct fetches. -/

theorem get_property_by_id_some (gw : Gateway) (pid : String) (pd : IdProperty)
    (h : (get_property_by_id gw pid).1 = some pd) :
    pd.id = pid ∧ pd.applicable_item = none := by
  unfold get_property_by_id get_property_details at h
  cases hfe : gw.fetchEntity pid with
  | none => rw [hfe] at h; simp at h
  | some e =>
    rw [hfe] at h
    simp only [Option.map_some] at h
    cases h
    simp [simplifyDetails]

theorem fastStep_items (gw : Gateway) (domain : String)
    (st : PlatformData × Bool × List KbCall) (pid : String) :
    (fastStep gw domain st pid).1.wikidata_items = st.1.wikidata_items := by
  unfold fastStep
  cases h : (get_property_by_id gw pid).1 with
  | none => rfl
  | some pd =>
    have ha := (get_property_by_id_some gw pid pd h).2
    simp [ha, truthyStr]

theorem fastStep_domain (gw : Gateway) (domain : String)
    (st : PlatformData × Bool × List KbCall) (pid : String) :
    (fastStep gw domain st pid).1.domain = st.1.domain := by
  unfold fastStep
  cases h : (get_property_by_id gw pid).1 with
  | none => rfl
  | some pd =>
    have ha := (get_property_by_id_some gw pid pd h).2
    simp [ha, truthyStr]

theorem fastStep_extracted (gw : Gateway) (domain : String)
    (st : PlatformData × Bool × List KbCall) (pid : String) :
    (fastStep gw domain st pid).1.extracted_ids = st.1.extracted_ids := by
  unfold fastStep
  cases h : (get_property_by_id gw pid).1 with
  | none => rfl
  | some pd =>
    have ha := (get_property_by_id_some gw pid pd h).2
    simp [ha, truthyStr]

theorem fastStep_formatted (gw : Gateway) (domain : String)
    (st : PlatformData × Bool × List KbCall) (pid : String) :
    (fastStep gw domain st pid).1.formatted_urls = st.1.formatted_urls := by
  unfold fastStep
  cases h : (get_property_by_id gw pid).1 with
  | none => rfl
  | some pd =>
    have ha := (get_property_by_id_some gw pid pd h).2
    simp [ha, truthyStr]

theorem fastStep_trace (gw : Gateway) (domain : String)
    (st : PlatformData × Bool × List KbCall) (pid : String) :
    (fastStep gw domain st pid).2.2 =
      st.2.2 ++ [KbCall.fetchProperty pid] := by
  unfold fastStep
  cases h : (get_property_by_id gw pid).1 with
  | none => rfl
  | some pd =>
    have ha := (get_property_by_id_some gw pid pd h).2
    simp [ha, truthyStr]

theorem fastStep_props_append (gw : Gateway) (domain : String)
    (st : PlatformData × Bool × List KbCall) (pid : String) :
    (fastStep gw domain st pid).1.identifier_properties =
      st.1.identifier_properties ++
        (match (get_property_by_id gw pid).1 with
         | none => []
         | some pd => [pd]) := by
  unfold fastStep
  cases h : (get_property_by_id gw pid).1 with
  | none => simp
  | some pd =>
    have ha := (get_property_by_id_some gw pid pd h).2
    simp [ha, truthyStr]

theorem foldl_fastStep_items (gw : Gateway) (domain : String)
    (pids : List String) :
    ∀ st : PlatformData × Bool × List KbCall,
      (pids.foldl (fastStep gw domain) st).1.wikidata_items =
        st.1.wikidata_items := by
  induction pids with
  | nil => intro st; rfl
  | cons p t ih =>
    intro st
    simp only [List.foldl_cons]
    rw [ih, fastStep_items]

theorem foldl_fastStep_domain (gw : Gateway) (domain : String)
    (pids : List String) :
    ∀ st : PlatformData × Bool × List KbCall,
      (pids.foldl (fastStep gw domain) st).1.domain = st.1.domain := by
  induction pids with
  | nil => intro st; rfl
  | cons p t ih =>
    intro st
    simp only [List.foldl_cons]
    rw [ih, fastStep_domain]

theorem foldl_fastStep_extracted (gw : Gateway) (domain : String)
    (pids : List String) :
    ∀ st : PlatformData × Bool × List KbCall,
      (pids.foldl (fastStep gw domain) st).1.extracted_ids =
        st.1.extracted_ids := by
  induction pids with
  | nil => intro st; rfl
  | cons p t ih =>
    intro st
    simp only [List.foldl_cons]
    rw [ih, fastStep_extracted]

theorem foldl_fastStep_formatted (gw : Gateway) (domain : String)
    (pids : List String) :
    ∀ st : PlatformData × Bool × List KbCall,
      (pids.foldl (fastStep gw domain) st).1.formatted_urls =
        st.1.formatted_urls := by
  induction pids with
  | nil => intro st; rfl
  | cons p t ih =>
    intro st
    simp only [List.foldl_cons]
    rw [ih, fastStep_formatted]

theorem foldl_fastStep_trace (gw : Gateway) (domain : String)
    (pids : List String) :
    ∀ st : PlatformData × Bool × List KbCall,
      (pids.foldl (fastStep gw domain) st).2.2 =
        st.2.2 ++ pids.map KbCall.fetchProperty := by
  induction pids with
  | nil => intro st; simp
  | cons p t ih =>
    intro st
    simp only [List.foldl_cons, List.map_cons]
    rw [ih, fastStep_trace]
    simp

theorem foldl_fastStep_ids (gw : Gateway) (domain : String)
    (pids : List String) :
    ∀ st : PlatformData × Bool × List KbCall,
      ((pids.foldl (fastStep gw domain) st).1.identifier_properties).map
          IdProperty.id =
        (st.1.identifier_properties.map IdProperty.id) ++
          pids.filter (fun pid => ((get_property_by_id gw pid).1).isSome) := by
  induction pids with
  | nil => intro st; simp
  | cons p t ih =>
    intro st
    simp only [List.foldl_cons, List.filter_cons]
    rw [ih]
    rw [fastStep_props_append]
    cases h : (get_property_by_id gw p).1 with
    | none => simp [h]
    | some pd =>
      have hid := (get_property_by_id_some gw p pd h).1
      simp [h, hid]

/-! Lemma layer: no-duplicate invariants of the property lists. -/

theorem known_platforms_nodup (d : String) (pids : List String)
    (h : pyLookup KNOWN_PLATFORMS d = some pids) : pids.Nodup := by
  simp only [KNOWN_PLATFORMS, pyLookup] at h
  repeat' split at h
  all_goals simp_all
  all_goals (subst h; decide)

theorem searchPropStep_nodup (item_id : String) (acc : List IdProperty)
    (d : PropertyDetails) (h : (acc.map IdProperty.id).Nodup) :
    ((searchPropStep item_id acc d).map IdProperty.id).Nodup := by
  unfold searchPropStep
  split
  · split
    · split
      · exact h
      · rename_i hmem
        simp only [List.map_append, List.map_cons, List.map_nil]
        rw [List.nodup_append]
        refine ⟨h, List.nodup_singleton _, ?_⟩
        intro x hx hy
        simp only [simplifyDetails, List.mem_singleton] at hy
        subst hy
        apply hmem
        rw [List.contains_iff_exists_mem_beq]
        exact ⟨d.id, hx, by simp⟩
    · exact h
  · exact h

theorem searchInner_nodup (gw : Gateway) (item_id : String)
    (st : List IdProperty × List KbCall) (pid : String)
    (h : (st.1.map IdProperty.id).Nodup) :
    (((searchInner gw item_id st pid).1).map IdProperty.id).Nodup := by
  unfold searchInner
  split
  · exact h
  · exact searchPropStep_nodup item_id st.1 _ h

theorem foldl_searchInner_nodup (gw : Gateway) (item_id : String)
    (pids : List String) :
    ∀ st : List IdProperty × List KbCall, (st.1.map IdProperty.id).Nodup →
      ((pids.foldl (searchInner gw item_id) st).1.map IdProperty.id).Nodup := by
  induction pids with
  | nil => intro st h; exact h
  | cons p t ih =>
    intro st h
    simp only [List.foldl_cons]
    exact ih _ (searchInner_nodup gw item_id st p h)

theorem searchOuter_nodup (gw : Gateway) (st : List IdProperty × List KbCall)
    (item : PlatformItem) (h : (st.1.map IdProperty.id).Nodup) :
    ((searchOuter gw st item).1.map IdProperty.id).Nodup := by
  unfold searchOuter
  split
  · exact h
  · split
    · exact h
    · exact foldl_searchInner_nodup gw item.id _ _ h

theorem foldl_searchOuter_nodup (gw : Gateway) (items : List PlatformItem) :
    ∀ st : List IdProperty × List KbCall, (st.1.map IdProperty.id).Nodup →
      ((items.foldl (searchOuter gw) st).1.map IdProperty.id).Nodup := by
  induction items with
  | nil => intro st h; exact h
  | cons i t ih =>
    intro st h
    simp only [List.foldl_cons]
    exact ih _ (searchOuter_nodup gw st i h)

theorem search_result_nodup (gw : Gateway) (domain : String) (sr : SearchData)
    (h : (get_platform_metadata_via_search gw domain).1 = some sr) :
    (sr.identifier_properties.map IdProperty.id).Nodup := by
  unfold get_platform_metadata_via_search at h
  cases hpi : gw.platformItems domain with
  | none => rw [hpi] at h; simp at h
  | some items =>
    rw [hpi] at h
    by_cases hij : items = []
    · simp [hij] at h
    · simp only [if_neg hij] at h
      cases h
      exact foldl_searchOuter_nodup gw items _ (by simp)

/-! Lemma layer: the three discovery phases. -/

theorem knownPhase_domain (gw : Gateway) (d : String) :
    (knownPhase gw d).1.domain = d := by
  unfold knownPhase
  cases h : pyLookup KNOWN_PLATFORMS d with
  | none => rfl
  | some pids =>
    simp only []
    rw [show (fastFold gw d pids).1.domain = d from by
      unfold fastFold; rw [foldl_fastStep_domain]]

theorem knownPhase_items (gw : Gateway) (d : String) :
    (knownPhase gw d).1.wikidata_items = [] := by
  unfold knownPhase
  cases h : pyLookup KNOWN_PLATFORMS d with
  | none => rfl
  | some pids =>
    simp only []
    rw [show (fastFold gw d pids).1.wikidata_items = [] from by
      unfold fastFold; rw [foldl_fastStep_items]]

theorem knownPhase_extracted (gw : Gateway) (d : String) :
    (knownPhase gw d).1.extracted_ids = [] := by
  unfold knownPhase
  cases h : pyLookup KNOWN_PLATFORMS d with
  | none => rfl
  | some pids =>
    simp only []
    rw [show (fastFold gw d pids).1.extracted_ids = [] from by
      unfold fastFold; rw [foldl_fastStep_extracted]]

theorem knownPhase_formatted (gw : Gateway) (d : String) :
    (knownPhase gw d).1.formatted_urls = [] := by
  unfold knownPhase
  cases h : pyLookup KNOWN_PLATFORMS d with
  | none => rfl
  | some pids =>
    simp only []
    rw [show (fastFold gw d pids).1.formatted_urls = [] from by
      unfold fastFold; rw [foldl_fastStep_formatted]]

theorem knownPhase_nodup (gw : Gateway) (d : String) :
    ((knownPhase gw d).1.identifier_properties.map IdProperty.id).Nodup := by
  unfold knownPhase
  cases h : pyLookup KNOWN_PLATFORMS d with
  | none => simp
  | some pids =>
    simp only []
    rw [show (fastFold gw d pids).1.identifier_properties.map IdProperty.id =
        pids.filter (fun pid => ((get_property_by_id gw pid).1).isSome) from by
      unfold fastFold; rw [foldl_fastStep_ids]; simp]
    exact List.Nodup.filter _ (known_platforms_nodup d pids h)

theorem knownPhase_trace (gw : Gateway) (d : String) :
    (knownPhase gw d).2.all isFetchCall = true := by
  unfold knownPhase
  cases h : pyLookup KNOWN_PLATFORMS d with
  | none => rfl
  | some pids =>
    simp only []
    rw [show (fastFold gw d pids).2.2 = pids.map KbCall.fetchProperty from by
      unfold fastFold; rw [foldl_fastStep_trace]; simp]
    simp [List.all_eq_true, isFetchCall]

theorem searchPhase_skip (gw : Gateway) (d : String)
    (s1 : PlatformData × List KbCall)
    (h : s1.1.identifier_properties ≠ []) : searchPhase gw d s1 = s1 := by
  unfold searchPhase
  simp [h]

theorem searchPhase_nodup (gw : Gateway) (d : String)
    (s1 : PlatformData × List KbCall)
    (h : (s1.1.identifier_properties.map IdProperty.id).Nodup) :
    ((searchPhase gw d s1).1.identifier_properties.map IdProperty.id).Nodup := by
  unfold searchPhase
  split
  · cases hs : (get_platform_metadata_via_search gw d).1 with
    | none => exact h
    | some sr => exact search_result_nodup gw d sr hs
  · exact h

theorem explicitPhase_nodup (gw : Gateway) (property_id : Option String)
    (s2 : PlatformData × List KbCall)
    (h : (s2.1.identifier_properties.map IdProperty.id).Nodup) :
    ((explicitPhase gw property_id s2).1.identifier_properties.map
      IdProperty.id).Nodup := by
  unfold explicitPhase
  cases property_id with
  | none => exact h
  | some pid =>
    simp only []
    split
    · rename_i hguard
      cases hp : (get_property_by_id gw pid).1 with
      | none => exact h
      | some pd =>
        have hid := (get_property_by_id_some gw pid pd hp).1
        simp only [List.map_append, List.map_cons, List.map_nil]
        rw [List.nodup_append]
        refine ⟨h, List.nodup_singleton _, ?_⟩
        intro x hx hy
        simp only [List.mem_singleton] at hy
        subst hy
        apply hguard.2
        rw [List.contains_iff_exists_mem_beq]
        exact ⟨pd.id, hx, by simp [hid]⟩
    · exact h

theorem explicitPhase_items (gw : Gateway) (property_id : Option String)
    (s2 : PlatformData × List KbCall) :
    (explicitPhase gw property_id s2).1.wikidata_items =
      s2.1.wikidata_items := by
  unfold explicitPhase
  cases property_id with
  | none => rfl
  | some pid =>
    simp only []
    split
    · cases hp : (get_property_by_id gw pid).1 with
      | none => rfl
      | some pd => rfl
    · rfl

theorem explicitPhase_trace (gw : Gateway) (property_id : Option String)
    (s2 : PlatformData × List KbCall)
    (h : s2.2.all isFetchCall = true) :
    (explicitPhase gw property_id s2).2.all isFetchCall = true := by
  unfold explicitPhase
  cases property_id with
  | none => exact h
  | some pid =>
    simp only []
    split
    · cases hp : (get_property_by_id gw pid).1 with
      | none => simp [List.all_append, h, isFetchCall]
      | some pd => simp [List.all_append, h, isFetchCall]
    · exact h

theorem analyze_eq_some (gw : Gateway) (url : String) (pid : Option String)
    (domain : String) (hdom : get_domain_from_url url = some domain) :
    analyze_research_platform gw url pid =
      (some (runExtraction url
        (explicitPhase gw pid (searchPhase gw domain (knownPhase gw domain))).1),
       (explicitPhase gw pid (searchPhase gw domain (knownPhase gw domain))).2) := by
  unfold analyze_research_platform
  rw [hdom]

/-- C7: in every resolution result, each property id occurs at most once
in the identifier-property sequence, whichever combination of the fast
path, the discovery path and the explicit property id produced it. -/
theorem C7_property_dedup (gw : Gateway) (url : String) (pid : Option String)
    (res : PlatformData)
    (h : (analyze_research_platform gw url pid).1 = some res) :
    (res.identifier_properties.map IdProperty.id).Nodup := by
  unfold analyze_research_platform at h
  cases hdom : get_domain_from_url url with
  | none => rw [hdom] at h; simp at h
  | some domain =>
    rw [hdom] at h
    simp only [Option.some.injEq] at h
    subst h
    rw [runExtraction_props]
    exact explicitPhase_nodup _ _ _
      (searchPhase_nodup _ _ _ (knownPhase_nodup gw domain))

/-- C4: for a domain of the static registry whose fast path yields at
least one property, the resolution issues only direct property-detail
fetches: no catalog-entry search and no per-entry property query appears
in the oracle-call trace. -/
theorem C4_fast_path_only_fetches (gw : Gateway) (url : String)
    (pid : Option String) (domain : String) (pids : List String)
    (hdom : get_domain_from_url url = some domain)
    (hknown : pyLookup KNOWN_PLATFORMS domain = some pids)
    (hfast : (fastFold gw domain pids).1.identifier_properties ≠ []) :
    (analyze_research_platform gw url pid).2.all isFetchCall = true := by
  rw [analyze_eq_some gw url pid domain hdom]
  have hsp : searchPhase gw domain (knownPhase gw domain) =
      knownPhase gw domain := by
    apply searchPhase_skip
    unfold knownPhase
    rw [hknown]
    exact hfast
  rw [hsp]
  exact explicitPhase_trace _ _ _ (knownPhase_trace gw domain)

/-- C8: for every URL that parses into a domain the pipeline returns a
well-formed result, and when the fast path yields nothing, the discovery
search reports nothing and no explicit property id is supplied, that
result carries the domain and four empty collections — an empty outcome,
not a failure. -/
theorem C8_empty_resolution (gw : Gateway) (url : String) (pid : Option String)
    (domain : String)
    (hdom : get_domain_from_url url = some domain)
    (hfast : (knownPhase gw domain).1.identifier_properties = [])
    (hsearch : (get_platform_metadata_via_search gw domain).1 = none)
    (hpid : pid = none) :
    (analyze_research_platform gw url pid).1 = some ⟨domain, [], [], [], []⟩ := by
  subst hpid
  rw [analyze_eq_some gw url none domain hdom]
  have hs2 : (searchPhase gw domain (knownPhase gw domain)).1 =
      (knownPhase gw domain).1 := by
    unfold searchPhase
    rw [if_pos hfast, hsearch]
  have hkp : (knownPhase gw domain).1 = ⟨domain, [], [], [], []⟩ := by
    have h1 := knownPhase_domain gw domain
    have h2 := knownPhase_items gw domain
    have h3 := knownPhase_extracted gw domain
    have h4 := knownPhase_formatted gw domain
    cases hk : (knownPhase gw domain).1 with
    | mk dm wi ip ei fu =>
      rw [hk] at h1 h2 h3 h4 hfast
      simp only [] at h1 h2 h3 h4 hfast
      rw [h1, h2, h3, h4, hfast]
  show some (runExtraction url (searchPhase gw domain (knownPhase gw domain)).1) =
    some ⟨domain, [], [], [], []⟩
  rw [hs2, hkp]
  rfl

/-- C10: for a registry domain resolved through the fast path the
resulting record's catalog-entry list is empty, because the simplified
property dicts returned by get_property_by_id omit the applicable-item
key, so the branch that would synthesise a platform item never runs. -/
theorem C10_fast_path_no_catalog (gw : Gateway) (url : String)
    (pid : Option String) (domain : String) (pids : List String)
    (res : PlatformData) (pid2 : String) (pd : IdProperty)
    (hdom : get_domain_from_url url = some domain)
    (hknown : pyLookup KNOWN_PLATFORMS domain = some pids)
    (hfast : (fastFold gw domain pids).1.identifier_properties ≠ [])
    (hres : (analyze_research_platform gw url pid).1 = some res)
    (hpd : (get_property_by_id gw pid2).1 = some pd) :
    res.wikidata_items = [] ∧ pd.applicable_item = none := by
  constructor
  · rw [analyze_eq_some gw url pid domain hdom] at hres
    simp only [Option.some.injEq] at hres
    subst hres
    rw [runExtraction_items, explicitPhase_items]
    have hsp : searchPhase gw domain (knownPhase gw domain) =
        knownPhase gw domain := by
      apply searchPhase_skip
      unfold knownPhase
      rw [hknown]
      exact hfast
    rw [hsp]
    exact knownPhase_items gw domain
  · exact (get_property_by_id_some gw pid2 pd hpd).2


theorem C4_witness :
    (analyze_research_platform gwDemo
      "https://openreview.net/forum?id=et5l9qPUhm" none).2.all isFetchCall =
      true :=
  C4_fast_path_only_fetches gwDemo "https://openreview.net/forum?id=et5l9qPUhm"
    none "openreview.net" ["P8968", "P8964", "P8965"]
    (by decide) (by decide) (by decide)

theorem C7_witness :
    (resDemo.identifier_properties.map IdProperty.id).Nodup :=
  C7_property_dedup gwDemo "https://openreview.net/forum?id=et5l9qPUhm" none
    resDemo (by decide)

theorem C8_witness :
    (analyze_research_platform gwEmpty "https://example.com/x" none).1 =
      some ⟨"example.com", [], [], [], []⟩ :=
  C8_empty_resolution gwEmpty "https://example.com/x" none "example.com"
    (by decide) (by decide) (by decide) rfl

theorem C10_witness :
    resDemo.wikidata_items = [] ∧ propP8968.applicable_item = none :=
  C10_fast_path_no_catalog gwDemo "https://openreview.net/forum?id=et5l9qPUhm"
    none "openreview.net" ["P8968", "P8964", "P8965"] resDemo "P8968" propP8968
    (by decide) (by decide) (by decide) (by decide) (by decide)

/-! Lemma layer: the placeholder substitution. -/

theorem subst1_append (rep a b : List Char) (h : hasSub1 a = false) :
    subst1 rep (a ++ '$' :: '1' :: b) = a ++ rep ++ subst1 rep b := by
  induction a with
  | nil => simp [subst1]
  | cons c a' ih =>
    cases a' with
    | nil =>
      have hne : ¬ (c = '$' ∧ '$' = '1') := by
        intro hcontra
        exact absurd hcontra.2 (by decide)
      simp only [List.cons_append, List.nil_append, subst1, if_neg hne]
      simp [subst1]
    | cons c2 a'' =>
      have h1 : ¬ (c = '$' ∧ c2 = '1') := by
        intro hcontra
        simp [hasSub1, hcontra.1, hcontra.2] at h
      have h2 : hasSub1 (c2 :: a'') = false := by
        simp only [hasSub1, Bool.or_eq_false_iff] at h
        exact h.2
      simp only [List.cons_append]
      simp only [subst1, if_neg h1, List.append_eq]
      have hih := ih h2
      simp only [List.cons_append] at hih
      rw [hih]

/-- C2 (amended): formatting is deterministic and substitutes every
occurrence of the placeholder, left to right: in a template that is a
placeholder-free prefix, the placeholder, and an arbitrary tail, the
prefix is kept, the placeholder becomes the raw id, and substitution
continues through the tail; the one-placeholder example of the
specification holds as stated. -/
theorem C2_formatter_substitutes_every_occurrence (a b id : String)
    (h : hasSub1 a.data = false) :
    applyFormatter (a ++ "$1" ++ b) id = a ++ id ++ applyFormatter b id ∧
    applyFormatter "https://example.org/$1" "abc" = "https://example.org/abc" := by
  constructor
  · unfold applyFormatter
    have hdata : (a ++ "$1" ++ b).data = a.data ++ '$' :: '1' :: b.data := by
      simp [String.data_append]
    rw [hdata, subst1_append id.data a.data b.data h]
    apply String.ext
    simp [String.data_append]
  · decide

/-- C2 (counterexample): with two occurrences of the placeholder the
formatter substitutes both, not only the first as the claim states. -/
theorem C2_counterexample :
    applyFormatter "https://example.org/$1/$1" "abc" =
      "https://example.org/abc/abc" ∧
    "https://example.org/abc/abc" ≠ "https://example.org/abc/$1" := by
  decide

theorem C2_witness :
    applyFormatter ("https://example.org/" ++ "$1" ++ "") "abc" =
      "https://example.org/" ++ "abc" ++ applyFormatter "" "abc" ∧
    applyFormatter "https://example.org/$1" "abc" = "https://example.org/abc" :=
  C2_formatter_substitutes_every_occurrence "https://example.org/" "" "abc"
    (by decide)

/-- C3 (amended): domain resolution returns the URL's netloc verbatim —
the section between the double slash and the first slash, question mark
or hash sign, with case, port and userinfo preserved — and a URL without
an authority section yields the empty string rather than an error; the
returned domain never contains a path, query or fragment delimiter. -/
theorem C3_domain_is_verbatim_netloc (url d : String)
    (h : get_domain_from_url url = some d) :
    d.data.all (fun c => ¬ netlocDelim c) = true ∧
    (match splitScheme url.data with
     | '/' :: '/' :: r => d.data = r.takeWhile (fun c => ¬ netlocDelim c)
     | _ => d = "") := by
  simp only [get_domain_from_url] at h
  split at h
  · rename_i r heq
    split at h
    · exact absurd h (by simp)
    · rw [Option.some.injEq] at h
      subst h
      constructor
      · rw [List.all_eq_true]
        intro c hc
        have hmem := List.mem_takeWhile_imp (by simpa using hc)
        simpa using hmem
      · rfl
  · rw [Option.some.injEq] at h
    subst h
    exact ⟨by decide, rfl⟩

/-- C3 (counterexample): the code neither lowercases the host nor strips
the port (the netloc is returned verbatim), and a URL with no parseable
host yields the empty string instead of failing with an error. -/
theorem C3_counterexample :
    get_domain_from_url "https://DOI.ORG:8080/x" = some "DOI.ORG:8080" ∧
    "DOI.ORG:8080" ≠ "doi.org" ∧
    get_domain_from_url "nonsense" = some "" := by
  decide

theorem C3_witness :
    ("doi.org" : String).data.all (fun c => ¬ netlocDelim c) = true ∧
    (match splitScheme ("https://doi.org/x" : String).data with
     | '/' :: '/' :: r => ("doi.org" : String).data =
         r.takeWhile (fun c => ¬ netlocDelim c)
     | _ => ("doi.org" : String) = "") :=
  C3_domain_is_verbatim_netloc "https://doi.org/x" "doi.org" (by decide)

/-- C5 (amended): validation with an absent (or empty, hence falsy)
constraint always succeeds; a constraint whose anchor-wrapped form fails
to compile makes validation return false; and for a compiling constraint
validation returns true exactly when the anchor-wrapped pattern has a
match beginning at the start of the identifier (Python re.match) — with
a top-level alternation in the constraint the trailing anchor binds only
to the last alternative, so this can be weaker than a full-string
match. -/
theorem C5_validation_matches_at_start (id c : String) (hc : c ≠ "") :
    validate_id_format id none = true ∧
    validate_id_format id (some "") = true ∧
    (match Rx.compile ("^" ++ c ++ "$") with
     | none => validate_id_format id (some c) = false
     | some (a, ng) => validate_id_format id (some c) = Rx.matchAt0 a ng id) := by
  refine ⟨rfl, rfl, ?_⟩
  cases hcp : Rx.compile ("^" ++ c ++ "$") with
  | none =>
    simp [validate_id_format, truthyStr, hc, Rx.matchB, hcp]
  | some pr =>
    obtain ⟨a, ng⟩ := pr
    simp [validate_id_format, truthyStr, hc, Rx.matchB, hcp]

/-- C5 (counterexample): for the constraint a-bar-b and the identifier
ab, the code validates (the wrapped pattern matches at the start), but
the identifier does not fully match the anchor-wrapped constraint, so
the claim's full-match reading is false on the code. -/
theorem C5_counterexample :
    validate_id_format "ab" (some "a|b") = true ∧
    Rx.fullmatchB ("^" ++ "a|b" ++ "$") "ab" = some false := by
  decide

theorem C5_witness :
    validate_id_format "12" none = true ∧
    validate_id_format "12" (some "") = true ∧
    (match Rx.compile ("^" ++ "[0-9]+" ++ "$") with
     | none => validate_id_format "12" (some "[0-9]+") = false
     | some (a, ng) => validate_id_format "12" (some "[0-9]+") =
         Rx.matchAt0 a ng "12") :=
  C5_validation_matches_at_start "12" "[0-9]+" (by decide)

theorem extractStep_compile_fail (url : String) (data : PlatformData)
    (p : IdProperty) (h : Rx.compile (p.url_pattern.getD "") = none) :
    extractStep url data p = data := by
  apply extractStep_discard
  rw [extract_id_compile_fail url p.url_pattern h]
  trivial

/-- C6: extraction is an unanchored search returning the first capturing
group of the first match, and it yields nothing — without raising —
when the property has no usable pattern (absent or empty), when the
pattern does not compile, or when the match carries no capturing group;
a property whose pattern does not compile is a no-op inside the
extraction loop, leaving every other property's extraction unchanged.
The closed conjunct shows a match found mid-string (search, not an
anchored match). -/
theorem C6_extract_safety (url s : String) (data : PlatformData)
    (l1 l2 : List IdProperty) (pbad : IdProperty)
    (hbad : Rx.compile (pbad.url_pattern.getD "") = none)
    (hs : s ≠ "") :
    extract_id_from_url url none = none ∧
    extract_id_from_url url (some "") = none ∧
    (match Rx.compile s with
     | none => extract_id_from_url url (some s) = none
     | some (a, ng) =>
       match Rx.search a ng url with
       | none => extract_id_from_url url (some s) = none
       | some m => extract_id_from_url url (some s) =
           (if m.groups = [] then none else (m.groups.head?).join)) ∧
    (l1 ++ pbad :: l2).foldl (extractStep url) data =
      (l1 ++ l2).foldl (extractStep url) data ∧
    extract_id_from_url "https://arxiv.org/abs/2310.06825"
      (some "abs/(\\d+\\.\\d+)") = some "2310.06825" := by
  refine ⟨rfl, rfl, ?_, ?_, by decide⟩
  · cases hcp : Rx.compile s with
    | none => simp [extract_id_from_url, truthyStr, hs, hcp]
    | some pr =>
      obtain ⟨a, ng⟩ := pr
      cases hsr : Rx.search a ng url with
      | none => simp [extract_id_from_url, truthyStr, hs, hcp, hsr]
      | some m => simp [extract_id_from_url, truthyStr, hs, hcp, hsr]
  · induction l1 generalizing data with
    | nil =>
      simp only [List.nil_append, List.foldl_cons]
      rw [extractStep_compile_fail url data pbad hbad]
    | cons q l1' ih =>
      simp only [List.cons_append, List.foldl_cons]
      exact ih (extractStep url data q)


theorem C6_witness :
    extract_id_from_url "xabcy" none = none ∧
    extract_id_from_url "xabcy" (some "") = none ∧
    (match Rx.compile "abc" with
     | none => extract_id_from_url "xabcy" (some "abc") = none
     | some (a, ng) =>
       match Rx.search a ng "xabcy" with
       | none => extract_id_from_url "xabcy" (some "abc") = none
       | some m => extract_id_from_url "xabcy" (some "abc") =
           (if m.groups = [] then none else (m.groups.head?).join)) ∧
    ([] ++ propBadPattern :: []).foldl (extractStep "xabcy") emptyData =
      ([] ++ []).foldl (extractStep "xabcy") emptyData ∧
    extract_id_from_url "https://arxiv.org/abs/2310.06825"
      (some "abs/(\\d+\\.\\d+)") = some "2310.06825" :=
  C6_extract_safety "xabcy" "abc" emptyData [] [] propBadPattern
    (by decide) (by decide)

/-! Lemma layer: soundness of the DOI fallback scan — whatever it
extracts is a DOI-shaped group sitting at the end of the subject (up to
one final newline). -/

theorem takeWhile_append_of_all {α : Type} (p : α → Bool) (l r : List α)
    (c : α) (hl : ∀ x ∈ l, p x = true) (hc : p c = false) :
    (l ++ c :: r).takeWhile p = l ∧ (l ++ c :: r).dropWhile p = c :: r := by
  induction l with
  | nil => simp [List.takeWhile_cons, List.dropWhile_cons, hc]
  | cons a l' ih =>
    have hpa : p a = true := hl a (List.mem_cons_self a l')
    have ih' := ih (fun x hx => hl x (List.mem_cons_of_mem a hx))
    constructor
    · simp [List.cons_append, List.takeWhile_cons, hpa, ih'.1]
    · simp [List.cons_append, List.dropWhile_cons, hpa, ih'.2]

theorem doiTryAt_sound (cs g : List Char) (h : doiTryAt cs = some g) :
    ∃ ds t r3,
      g = '1' :: '0' :: '.' :: (ds ++ '/' :: t) ∧
      cs = g ++ r3 ∧ (r3 = [] ∨ r3 = ['\n']) ∧
      ds ≠ [] ∧ (∀ x ∈ ds, Char.isDigit x = true) ∧
      t ≠ [] ∧ (∀ x ∈ t, doiBody x = true) := by
  simp only [doiTryAt] at h
  split at h
  · rename_i rest
    split at h
    · exact absurd h (by simp)
    · rename_i hds
      split at h
      · rename_i r2 heq
        split at h
        · exact absurd h (by simp)
        · rename_i ht
          split at h
          · rename_i hr3
            rw [Option.some.injEq] at h
            subst h
            refine ⟨rest.takeWhile Char.isDigit, r2.takeWhile doiBody,
              r2.dropWhile doiBody, rfl, ?_, ?_, ?_, ?_, ?_, ?_⟩
            · have hrest : rest.takeWhile Char.isDigit ++
                  rest.dropWhile Char.isDigit = rest :=
                List.takeWhile_append_dropWhile Char.isDigit rest
              rw [heq] at hrest
              have hr2 : r2.takeWhile doiBody ++ r2.dropWhile doiBody = r2 :=
                List.takeWhile_append_dropWhile doiBody r2
              have key : (rest.takeWhile Char.isDigit ++
                  '/' :: r2.takeWhile doiBody) ++ r2.dropWhile doiBody = rest := by
                rw [List.append_assoc, List.cons_append, hr2, hrest]
              simp only [List.cons_append]
              rw [key]
            · simpa using hr3
            · simpa [List.isEmpty_iff] using hds
            · intro x hx
              exact List.mem_takeWhile_imp hx
            · simpa [List.isEmpty_iff] using ht
            · intro x hx
              exact List.mem_takeWhile_imp hx
          · exact absurd h (by simp)
      · exact absurd h (by simp)
  · exact absurd h (by simp)

theorem doiScan_sound (cs g : List Char) (h : doiScan cs = some g) :
    ∃ pre ds t r3,
      g = '1' :: '0' :: '.' :: (ds ++ '/' :: t) ∧
      cs = pre ++ g ++ r3 ∧ (r3 = [] ∨ r3 = ['\n']) ∧
      ds ≠ [] ∧ (∀ x ∈ ds, Char.isDigit x = true) ∧
      t ≠ [] ∧ (∀ x ∈ t, doiBody x = true) := by
  induction cs with
  | nil => simp [doiScan] at h
  | cons c rest ih =>
    rw [doiScan] at h
    split at h
    · rename_i g' heq
      rw [Option.some.injEq] at h
      subst h
      obtain ⟨ds, t, r3, hshape, hdec, hr3, h4, h5, h6, h7⟩ :=
        doiTryAt_sound (c :: rest) g' heq
      exact ⟨[], ds, t, r3, hshape, by simpa using hdec, hr3, h4, h5, h6, h7⟩
    · obtain ⟨pre, ds, t, r3, hshape, hdec, hr3, h4, h5, h6, h7⟩ := ih h
      exact ⟨c :: pre, ds, t, r3, hshape, by simp [hdec], hr3, h4, h5, h6, h7⟩

theorem doiShape_tryAt (ds t : List Char)
    (hds : ds ≠ []) (hds2 : ∀ x ∈ ds, Char.isDigit x = true)
    (ht : t ≠ []) (ht2 : ∀ x ∈ t, doiBody x = true) :
    doiTryAt ('1' :: '0' :: '.' :: (ds ++ '/' :: t)) =
      some ('1' :: '0' :: '.' :: (ds ++ '/' :: t)) := by
  have h1 := takeWhile_append_of_all Char.isDigit ds t '/' hds2 (by decide)
  simp only [doiTryAt, h1.1, h1.2]
  rw [if_neg (by simpa [List.isEmpty_iff] using hds)]
  have h2 : t.takeWhile doiBody = t := List.takeWhile_eq_self_iff.mpr ht2
  have h3 : t.dropWhile doiBody = [] := List.dropWhile_eq_nil_iff.mpr ht2
  simp only [h2, h3]
  rw [if_neg (by simpa [List.isEmpty_iff] using ht)]
  simp

theorem drop_length_sub (pre s : List Char) :
    (pre ++ s).drop ((pre ++ s).length - s.length) = s := by
  rw [List.length_append, Nat.add_sub_cancel, List.drop_left]

/-- C1: on the DOI-resolution domain, when the per-property extraction
loop recorded nothing and a candidate property carries a truthy URL
pattern, the fallback records under that property exactly the group
matched by the hard-coded DOI pattern: a string of the shape one-zero-dot,
digits, slash, non-slash non-space characters (the shape is witnessed by
the anchored attempt accepting the extracted group whole) sitting at the
very end of the URL, up to one final newline. -/
theorem C1_doi_fallback_extracts (url : String) (data : PlatformData)
    (p : IdProperty) (g : String)
    (hdom : data.domain = "doi.org")
    (hmem : p ∈ data.identifier_properties)
    (hpat : truthyStr p.url_pattern = true)
    (hnodup : (data.identifier_properties.map IdProperty.id).Nodup)
    (hempty : (mainLoop url data).extracted_ids = [])
    (hdoi : doiSearch url = some g) :
    pyLookup (runExtraction url data).extracted_ids p.id = some ⟨g, p⟩ ∧
    doiTryAt g.data = some g.data ∧
    (url.data.drop (url.data.length - g.data.length) = g.data ∨
     url.data.drop (url.data.length - (g.data.length + 1)) = g.data ++ ['\n']) := by
  have hdoi' := hdoi
  simp only [doiSearch] at hdoi'
  cases hsc : doiScan url.data with
  | none => rw [hsc] at hdoi'; exact absurd hdoi' (by simp)
  | some gl =>
    rw [hsc] at hdoi'
    simp only [Option.map_some', Option.some.injEq] at hdoi'
    have hgdata : g.data = gl := by rw [← hdoi']
    obtain ⟨pre, ds, t, r3, hshape, hdec, hr3, hds1, hds2, ht1, ht2⟩ :=
      doiScan_sound url.data gl hsc
    refine ⟨?_, ?_, ?_⟩
    · simp only [runExtraction]
      rw [if_pos hempty]
      exact foldl_fallbackStep_lookup url _ _ p g
        (by rw [mainLoop_domain]; exact hdom) hdoi
        (by rw [mainLoop_props]; exact hnodup)
        (by rw [mainLoop_props]; exact hmem) hpat
    · rw [hgdata, hshape]
      exact doiShape_tryAt ds t hds1 hds2 ht1 ht2
    · rcases hr3 with hr3 | hr3
      · left
        rw [hgdata]
        rw [hr3, List.append_nil] at hdec
        rw [hdec]
        exact drop_length_sub pre gl
      · right
        rw [hgdata]
        rw [hr3] at hdec
        rw [hdec]
        have hd := drop_length_sub pre (gl ++ ['\n'])
        simp only [List.append_assoc, List.length_append, List.length_cons,
          List.length_nil, Nat.zero_add] at hd ⊢
        exact hd

/-- C9: an identifier recorded by the DOI fallback is never checked
against the property's format constraint — it is recorded even when
validation rejects it — whereas an identifier extracted by a property's
own URL pattern that fails validation is discarded: the main extraction
loop leaves no entry under that property's id. -/
theorem C9_fallback_skips_validation (url : String) (data : PlatformData)
    (p : IdProperty) (g : String)
    (hdom : data.domain = "doi.org")
    (hmem : p ∈ data.identifier_properties)
    (hpat : truthyStr p.url_pattern = true)
    (hnodup : (data.identifier_properties.map IdProperty.id).Nodup)
    (hempty : (mainLoop url data).extracted_ids = [])
    (hdoi : doiSearch url = some g)
    (hinvalid : validate_id_format g p.format_constraint = false)
    (url2 : String) (data2 : PlatformData) (q : IdProperty) (s : String)
    (hq : q ∈ data2.identifier_properties)
    (hnodup2 : (data2.identifier_properties.map IdProperty.id).Nodup)
    (hex : extract_id_from_url url2 q.url_pattern = some s)
    (hinv2 : validate_id_format s q.format_constraint = false) :
    pyLookup (runExtraction url data).extracted_ids p.id = some ⟨g, p⟩ ∧
    pyLookup (mainLoop url2 data2).extracted_ids q.id = none := by
  constructor
  · simp only [runExtraction]
    rw [if_pos hempty]
    exact foldl_fallbackStep_lookup url _ _ p g
      (by rw [mainLoop_domain]; exact hdom) hdoi
      (by rw [mainLoop_props]; exact hnodup)
      (by rw [mainLoop_props]; exact hmem) hpat
  · apply foldl_extractStep_lookup_none
    · rfl
    · intro r hr hid
      have hrq : r = q := List.inj_on_of_nodup_map hnodup2 hr hq hid
      subst hrq
      rw [hex]
      exact Or.inr hinv2


theorem C1_witness :
    pyLookup (runExtraction "https://doi.org/10.1038/s41586-021-03819-2"
        dataDoi).extracted_ids propDoiBad.id =
      some ⟨"10.1038/s41586-021-03819-2", propDoiBad⟩ ∧
    doiTryAt ("10.1038/s41586-021-03819-2" : String).data =
      some ("10.1038/s41586-021-03819-2" : String).data ∧
    (("https://doi.org/10.1038/s41586-021-03819-2" : String).data.drop
        (("https://doi.org/10.1038/s41586-021-03819-2" : String).data.length -
          ("10.1038/s41586-021-03819-2" : String).data.length) =
        ("10.1038/s41586-021-03819-2" : String).data ∨
     ("https://doi.org/10.1038/s41586-021-03819-2" : String).data.drop
        (("https://doi.org/10.1038/s41586-021-03819-2" : String).data.length -
          (("10.1038/s41586-021-03819-2" : String).data.length + 1)) =
        ("10.1038/s41586-021-03819-2" : String).data ++ ['\n']) :=
  C1_doi_fallback_extracts "https://doi.org/10.1038/s41586-021-03819-2"
    dataDoi propDoiBad "10.1038/s41586-021-03819-2"
    rfl (by decide) (by decide) (by decide) (by decide) (by decide)

theorem C9_witness :
    pyLookup (runExtraction "https://doi.org/10.1038/s41586-021-03819-2"
        dataDoi).extracted_ids propDoiBad.id =
      some ⟨"10.1038/s41586-021-03819-2", propDoiBad⟩ ∧
    pyLookup (mainLoop "https://arxiv.org/abs/123" dataArxiv).extracted_ids
      propArxiv.id = none :=
  C9_fallback_skips_validation "https://doi.org/10.1038/s41586-021-03819-2"
    dataDoi propDoiBad "10.1038/s41586-021-03819-2"
    rfl (by decide) (by decide) (by decide) (by decide) (by decide) (by decide)
    "https://arxiv.org/abs/123" dataArxiv propArxiv "123"
    (by decide) (by decide) (by decide) (by decide)
